import Mathlib

/-!
Shallow embedding of the Dashboard-Duo-Data repository (src/utils.py,
src/dashboard.py, src/app.py).

Tables are all-text when loaded (`pd.read_csv(..., dtype=str)`), so a raw
column is a `List String` and a raw table an ordered list of named columns.
Floating-point cell values are modelled as `Rat`: every value produced by the
code's numeric parsing is a finite decimal, which `Rat` represents exactly.
`pd.to_numeric(s, errors='coerce')` is modelled by a parser for optionally
signed decimal literals (surrounding whitespace ignored, as pandas does);
a parse failure (pandas `NaN`) is `none`.
-/

set_option maxRecDepth 8000

/- Batteries marks the `Rat` arithmetic operations `@[irreducible]`; restore
the default reducibility so that concrete runs of the embedding are checkable
by `decide` (the kernel ignores reducibility attributes either way). -/
set_option allowUnsafeReducibility true
attribute [semireducible] Rat.add Rat.mul Rat.inv Rat.sub

/-! ### Character and string primitives -/

/-- Whitespace test used by trimming (Python `str.strip`). -/
def isWs (c : Char) : Bool := c.isWhitespace

/-- Drop whitespace from both ends of a character list. -/
def trimL (l : List Char) : List Char :=
  ((l.dropWhile isWs).reverse.dropWhile isWs).reverse

/-- Python `str.strip()` on a string. -/
def strTrim (s : String) : String := String.mk (trimL s.toList)

/-- Pandas `.str.replace('.', '', regex=False)`: delete every '.' character. -/
def delDotsL (l : List Char) : List Char := l.filter (fun c => c != '.')

/-- Delete every '.' character of a string. -/
def delDots (s : String) : String := String.mk (delDotsL s.toList)

/-- Pandas `.str.replace(',', '.', regex=False)`: turn every ',' into '.'. -/
def commaToDotL (l : List Char) : List Char :=
  l.map (fun c => if c = ',' then '.' else c)

/-- Turn every ',' of a string into '.'. -/
def commaToDot (s : String) : String := String.mk (commaToDotL s.toList)

/-- Does the character list start with the given pattern? -/
def startsWithL : List Char → List Char → Bool
  | _, [] => true
  | [], _ :: _ => false
  | h :: hs, p :: ps => h = p && startsWithL hs ps

/-- Does the character list contain the pattern as a contiguous run? -/
def hasRunL (pat : List Char) : List Char → Bool
  | [] => pat.isEmpty
  | h :: t => startsWithL (h :: t) pat || hasRunL pat t

/-- Python `pat in hay` substring test. -/
def strContains (hay pat : String) : Bool := hasRunL pat.toList hay.toList

/-! ### Decimal parsing (model of `pd.to_numeric(..., errors='coerce')`) -/

/-- Value of a digit run read in base 10. -/
def natOfDigits (l : List Char) : Nat :=
  l.foldl (fun a c => a * 10 + (c.toNat - 48)) 0

/-- Value of a fractional digit run (digits after the decimal point). -/
def fracVal (l : List Char) : Rat :=
  (natOfDigits l : Rat) / (10 : Rat) ^ l.length

/-- Strip one leading sign character, returning the sign factor and the rest. -/
def stripSign (l : List Char) : Rat × List Char :=
  match l with
  | [] => (1, [])
  | c :: r => if c = '-' then (-1, r) else if c = '+' then (1, r) else (1, c :: r)

/-- Finish parsing after the integer digit run `ip`: the remainder must be
empty, or a '.' followed only by digits, and at least one digit must occur. -/
def parseAfterDigits (sgn : Rat) (ip rest : List Char) : Option Rat :=
  match rest with
  | [] => if ip = [] then none else some (sgn * (natOfDigits ip : Rat))
  | c :: r2 =>
    if c = '.' then
      if r2.dropWhile Char.isDigit = [] then
        if ip = [] && r2.takeWhile Char.isDigit = [] then none
        else some (sgn * ((natOfDigits ip : Rat) + fracVal (r2.takeWhile Char.isDigit)))
      else none
    else none

/-- Parse a character list as an optionally signed decimal literal. -/
def parseNumL (l : List Char) : Option Rat :=
  parseAfterDigits (stripSign l).1
    ((stripSign l).2.takeWhile Char.isDigit)
    ((stripSign l).2.dropWhile Char.isDigit)

/-- Model of `pd.to_numeric(s, errors='coerce')` on a single string cell:
pandas ignores surrounding whitespace; failure (`NaN`) is `none`. -/
def toNumeric (s : String) : Option Rat := parseNumL (trimL s.toList)

/-! ### Generic list machinery shared by the aggregation embeddings -/

/-- Insert into a list sorted by the boolean comparison `le`. -/
def insG {α : Type} (le : α → α → Bool) (a : α) : List α → List α
  | [] => [a]
  | b :: bs => if le a b then a :: b :: bs else b :: insG le a bs

/-- Insertion sort by the boolean comparison `le`. -/
def sortG {α : Type} (le : α → α → Bool) (l : List α) : List α :=
  l.foldr (insG le) []

/-- Code-point comparison of characters. -/
def charLt (a b : Char) : Bool := decide (a.toNat < b.toNat)

/-- Lexicographic (code-point) comparison of character lists, as Python and
pandas compare strings. -/
def lexLtL : List Char → List Char → Bool
  | [], [] => false
  | [], _ :: _ => true
  | _ :: _, [] => false
  | a :: as, b :: bs =>
    if charLt a b then true else if charLt b a then false else lexLtL as bs

/-- Lexicographic string order used for pandas group keys. -/
def strLe (a b : String) : Bool := !(lexLtL b.toList a.toList)

/-- Python `str.lower()` (ASCII case folding suffices for the column names). -/
def strLower (s : String) : String := String.mk (s.toList.map Char.toLower)

/-! ### utils.py — detect_and_clean_data -/

abbrev RawCol := List String
abbrev RawTable := List (String × RawCol)

/-- utils.py: `series_clean.str.replace('.', '', regex=False).str.replace(',', '.', regex=False)`
then `pd.to_numeric(..., errors='coerce')`, on a cell already stripped. -/
def utilsCellParse (c : String) : Option Rat :=
  toNumeric (commaToDot (delDots (strTrim c)))

/-- utils.py / dashboard.py: `series_clean == '<5'` — the suppression mask bit. -/
def utilsMaskCell (c : String) : Bool := strTrim c = "<5"

/-- utils.py: `converted.notna().sum()`. -/
def utilsValidCount (cells : RawCol) : Nat :=
  (cells.filter (fun c => (utilsCellParse c).isSome)).length

/-- utils.py: `len(series_clean.dropna())`.  After `astype(str)` no cell is
`NaN` (missing cells became the string "nan"), so `dropna` removes nothing
and this is the total row count of the column, empty cells included. -/
def utilsTotalNonEmpty (cells : RawCol) : Nat := cells.length

/-- utils.py: `valid_count / total_non_empty` (exact rational in the model). -/
def utilsValidRatio (cells : RawCol) : Rat :=
  (utilsValidCount cells : Rat) / (utilsTotalNonEmpty cells : Rat)

/-- utils.py: `total_non_empty > 0 and (is_privacy_val.any() or (valid_count / total_non_empty) > 0.5)`. -/
def utilsColNumeric (cells : RawCol) : Bool :=
  decide (0 < utilsTotalNonEmpty cells) &&
    (cells.any utilsMaskCell || decide (utilsValidRatio cells > 1 / 2))

/-- A cleaned column: numeric columns hold parsed values, categorical ones text. -/
inductive CleanCol
  | nums (vals : List Rat)
  | strs (vals : List String)
deriving DecidableEq

/-- utils.py per-column cleaning: numeric columns get `converted.fillna(0)`,
categorical columns get the stripped text written back. -/
def utilsCleanCol (cells : RawCol) : CleanCol :=
  if utilsColNumeric cells then .nums (cells.map (fun c => (utilsCellParse c).getD 0))
  else .strs (cells.map strTrim)

/-- utils.py: names appended to `categoricals`, in original column order. -/
def utilsCats (t : RawTable) : List String :=
  (t.filter (fun c => !(utilsColNumeric c.2))).map Prod.fst

/-- utils.py: names appended to `numerics`, in original column order. -/
def utilsNums (t : RawTable) : List String :=
  (t.filter (fun c => utilsColNumeric c.2)).map Prod.fst

/-- utils.py `detect_and_clean_data`: cleaned table, suppression mask,
categorical names, numeric names.  The function is total: no input, empty
or otherwise, makes it signal an error. -/
def utilsDetect (t : RawTable) :
    List (String × CleanCol) × List (String × List Bool) × List String × List String :=
  (t.map (fun c => (c.1, utilsCleanCol c.2)),
   t.map (fun c => (c.1, c.2.map utilsMaskCell)),
   utilsCats t,
   utilsNums t)

/-! ### dashboard.py — its own detect_and_clean_data variant -/

/-- dashboard.py: `series_clean.str.replace(',', '.', regex=False)` then
`pd.to_numeric`: the '.' characters are NOT removed in this variant. -/
def dashCellParse (c : String) : Option Rat :=
  toNumeric (commaToDot (strTrim c))

/-- dashboard.py: `converted.notna().sum()`. -/
def dashValidCount (cells : RawCol) : Nat :=
  (cells.filter (fun c => (dashCellParse c).isSome)).length

/-- dashboard.py: `valid_count > 0 and (is_privacy_val.any() or valid_count > 0.5 * total_count)`,
with `total_count = len(df_raw)`. -/
def dashColNumeric (cells : RawCol) : Bool :=
  decide (0 < dashValidCount cells) &&
    (cells.any utilsMaskCell ||
      decide ((dashValidCount cells : Rat) > (1 / 2) * (cells.length : Rat)))

/-- A dashboard.py cleaned column: numeric columns keep `NaN` (`none`) for the
unparsable and suppressed cells (`df_clean[col] = converted`, no fillna here);
categorical columns are left untouched in `df_clean` (raw, unstripped text). -/
inductive DashCol
  | nums (vals : List (Option Rat))
  | strs (vals : List String)
deriving DecidableEq

/-- dashboard.py per-column cleaning. -/
def dashCleanCol (cells : RawCol) : DashCol :=
  if dashColNumeric cells then .nums (cells.map dashCellParse) else .strs cells

/-- dashboard.py: names appended to `categoricals`. -/
def dashCats (t : RawTable) : List String :=
  (t.filter (fun c => !(dashColNumeric c.2))).map Prod.fst

/-- dashboard.py: names appended to `numerics`. -/
def dashNums (t : RawTable) : List String :=
  (t.filter (fun c => dashColNumeric c.2)).map Prod.fst

/-- dashboard.py `detect_and_clean_data`. -/
def dashDetect (t : RawTable) :
    List (String × DashCol) × List (String × List Bool) × List String × List String :=
  (t.map (fun c => (c.1, dashCleanCol c.2)),
   t.map (fun c => (c.1, c.2.map utilsMaskCell)),
   dashCats t,
   dashNums t)

/-! ### app.py — year-column heuristic and aggregation pipeline -/

/-- app.py `get_year_col` loop condition on a single (lower-cased) name:
`'jaar' in col_lower or 'onderwijsjaar' in col_lower or col_lower == 'jj'`. -/
def yearPred (c : String) : Bool :=
  strContains (strLower c) "jaar" || strContains (strLower c) "onderwijsjaar" ||
    decide (strLower c = "jj")

/-- app.py `get_year_col`: first column (original order) satisfying the
condition, `none` when no column qualifies.  The name is NOT trimmed. -/
def getYearCol : List String → Option String
  | [] => none
  | c :: cs => if yearPred c then some c else getYearCol cs

/-- app.py x-axis conversion of one cell:
`pd.to_numeric(cell.astype(str).str.replace('.', '', regex=False), errors='coerce').fillna(0)` —
'.' characters are deleted, ',' is NOT touched, failures become 0. -/
def appCellValue (s : String) : Rat := (toNumeric (delDots s)).getD 0

/-- Group-by-and-sum shared by both scripts: one row per distinct dimension
value (pandas sorts group keys), each measure summed within the group, plus
the row total across measures (`df_agg['Totaal'] = df_agg[x_axes].sum(axis=1)`). -/
def aggregate {K : Type} [DecidableEq K] (keyLe : K → K → Bool) (dims : List K)
    (measures : List (List Rat)) : List (K × List Rat × Rat) :=
  (sortG keyLe dims.dedup).map (fun k =>
    let sums := measures.map
      (fun vals => (((dims.zip vals).filter (fun p => decide (p.1 = k))).map Prod.snd).sum)
    (k, sums, sums.sum))

/-- Error signalled when an aggregation request cannot be served.  In the
source this is the pandas `ValueError` raised by `.reset_index()` when the
group-key name collides with a selected measure column; the spec's name for
the condition is `InvalidSelectionError`. -/
inductive AggError
  | invalidSelection
deriving DecidableEq

/-- app.py `df_agg = df_processed.groupby(y_axis)[x_axes].sum().reset_index()`
over raw string cells converted by `appCellValue`.  `reset_index` fails
exactly when the dimension name is among the selected measure names. -/
def appGroupBy (dimName : String) (dims : List String)
    (meas : List (String × List String)) : Except AggError (List (String × List Rat × Rat)) :=
  if dimName ∈ meas.map Prod.fst then .error .invalidSelection
  else .ok (aggregate strLe dims ((meas.map Prod.snd).map (fun m => m.map appCellValue)))

/-- Row comparison used by `sort_values('Totaal', ascending=...)`. -/
def rowLe {K : Type} (asc : Bool) (a b : K × List Rat × Rat) : Bool :=
  if asc then decide (a.2.2 ≤ b.2.2) else decide (b.2.2 ≤ a.2.2)

/-- app.py `df_top_n = df_agg.sort_values('Totaal', ascending=sort_ascending).tail(top_n)`:
sort by total in the chosen direction, then keep the LAST n rows. -/
def appSortTail {K : Type} (asc : Bool) (n : Nat)
    (rows : List (K × List Rat × Rat)) : List (K × List Rat × Rat) :=
  (sortG (rowLe asc) rows).drop ((sortG (rowLe asc) rows).length - n)

/-- dashboard.py: `df_viz[y_axis] = df_viz[y_axis].fillna(0)` — missing and
suppressed numeric cells become 0 for the chart. -/
def fillna0 (l : List (Option Rat)) : List Rat := l.map (fun v => v.getD 0)

/-- dashboard.py `df_grouped = df_viz.groupby(x_axis)[y_axis].sum().reset_index()`
over cleaned (Option-valued) measure columns.  As in `appGroupBy`,
`reset_index` fails exactly when the dimension name is a selected measure. -/
def dashGroupBy {K : Type} [DecidableEq K] (keyLe : K → K → Bool) (dimName : String)
    (dims : List K) (meas : List (String × List (Option Rat))) :
    Except AggError (List (K × List Rat × Rat)) :=
  if dimName ∈ meas.map Prod.fst then .error .invalidSelection
  else .ok (aggregate keyLe dims ((meas.map Prod.snd).map fillna0))

/-- dashboard.py sorting and Top-N: sort by the `__Sort__` total in the chosen
direction, then `head(n)` for "Top n", or everything for "Alles". -/
def dashSortTop {K : Type} (asc : Bool) (topn : Option Nat)
    (rows : List (K × List Rat × Rat)) : List (K × List Rat × Rat) :=
  match topn with
  | some n => (sortG (rowLe asc) rows).take n
  | none => sortG (rowLe asc) rows

/-! ### dashboard.py — suppression ('<5') report -/

/-- Count of suppressed cells of one measure column among raw rows whose
dimension value equals `v` (the spec's per-value suppressed-cell count). -/
def colSuppCount (dims : List String) (mask : List Bool) (v : String) : Nat :=
  ((dims.zip mask).filter (fun p => decide (p.1 = v) && p.2)).length

/-- Total suppressed-cell count for dimension value `v` over the chosen
measure columns. -/
def suppTotal (dims : List String) (masks : List (List Bool)) (v : String) : Nat :=
  (masks.map (fun m => colSuppCount dims m v)).sum

/-- dashboard.py `mask_sub = mask_lt5.loc[df_clean[x_axis].isin(df_final[x_axis])]`:
one measure's mask restricted to rows whose dimension value is on display. -/
def maskRestrict (dims : List String) (mask : List Bool) (fk : List String) :
    List (String × Bool) :=
  (dims.zip mask).filter (fun p => decide (p.1 ∈ fk))

/-- Suppressed-cell count of one measure for key `v` inside the restricted
mask (`mask_sub.groupby('__Dim__')[col].sum()` for one group). -/
def colSuppCountR (dims : List String) (mask : List Bool) (fk : List String)
    (v : String) : Nat :=
  ((maskRestrict dims mask fk).filter (fun p => decide (p.1 = v) && p.2)).length

/-- Group keys of the restricted mask (pandas sorts group keys). -/
def lt5Keys (dims fk : List String) : List String :=
  sortG strLe ((dims.filter (fun d => decide (d ∈ fk))).dedup)

/-- One row of `lt5_counts`: per-measure suppressed counts for key `k`, plus
`Totaal_Verborgen`, their sum. -/
def lt5Row (dims : List String) (masks : List (List Bool)) (fk : List String)
    (k : String) : String × List Nat × Nat :=
  (k, masks.map (fun m => colSuppCountR dims m fk k),
    (masks.map (fun m => colSuppCountR dims m fk k)).sum)

/-- dashboard.py `lt5_counts` with its `Totaal_Verborgen` column. -/
def lt5Counts (dims : List String) (masks : List (List Bool)) (fk : List String) :
    List (String × List Nat × Nat) :=
  (lt5Keys dims fk).map (lt5Row dims masks fk)

/-- dashboard.py `report = lt5_counts[lt5_counts['Totaal_Verborgen'] > 0]
.sort_values('Totaal_Verborgen', ascending=False)`. -/
def suppReport (dims : List String) (masks : List (List Bool)) (fk : List String) :
    List (String × List Nat × Nat) :=
  sortG (fun a b => decide (b.2.2 ≤ a.2.2))
    ((lt5Counts dims masks fk).filter (fun r => decide (0 < r.2.2)))

/-! ### Definitions written from the spec's words (for refinement claims) -/

/-- Modelled from the spec: "count of cells with non-empty canonical raw
string" — the denominator the spec prescribes for `valid_ratio`. -/
def specNonEmptyCount (cells : RawCol) : Nat :=
  (cells.filter (fun c => strTrim c != "")).length

/-- Modelled from the spec: `valid_ratio` = parsed count / non-empty count. -/
def specValidRatio (cells : RawCol) : Rat :=
  (utilsValidCount cells : Rat) / (specNonEmptyCount cells : Rat)

/-! ### Helper lemmas -/

theorem toList_mk (l : List Char) : (String.mk l).toList = l := rfl

theorem mem_insG {α : Type} (le : α → α → Bool) (a x : α) (l : List α) :
    x ∈ insG le a l ↔ x = a ∨ x ∈ l := by
  induction l with
  | nil => simp [insG]
  | cons b bs ih =>
    simp only [insG]
    split
    · simp [List.mem_cons]
    · simp only [List.mem_cons, ih]
      tauto

theorem mem_sortG {α : Type} (le : α → α → Bool) (x : α) (l : List α) :
    x ∈ sortG le l ↔ x ∈ l := by
  induction l with
  | nil => simp [sortG]
  | cons b bs ih =>
    show x ∈ insG le b (sortG le bs) ↔ _
    rw [mem_insG, ih]
    simp [List.mem_cons]

theorem mem_dropWhile_of_mem {α : Type} (p : α → Bool) (l : List α) (a : α)
    (ha : a ∈ l) (hp : p a = false) : a ∈ l.dropWhile p := by
  have hsplit := List.takeWhile_append_dropWhile (p := p) (l := l)
  rw [← hsplit] at ha
  rcases List.mem_append.mp ha with h | h
  · exact absurd (List.mem_takeWhile_imp h) (by simp [hp])
  · exact h

theorem mem_trimL (l : List Char) (c : Char) (hc : c ∈ l) (hw : isWs c = false) :
    c ∈ trimL l := by
  unfold trimL
  rw [List.mem_reverse]
  apply mem_dropWhile_of_mem _ _ _ _ hw
  rw [List.mem_reverse]
  exact mem_dropWhile_of_mem _ _ _ hc hw

theorem comma_stripSign (l : List Char) (h : ',' ∈ l) : ',' ∈ (stripSign l).2 := by
  cases l with
  | nil => cases h
  | cons c r =>
    have hd : stripSign (c :: r) =
        if c = '-' then ((-1 : Rat), r) else if c = '+' then ((1 : Rat), r)
        else ((1 : Rat), c :: r) := rfl
    by_cases h1 : c = '-'
    · rw [hd, if_pos h1]
      subst h1
      rcases List.mem_cons.mp h with h2 | h2
      · exact absurd h2 (by decide)
      · exact h2
    · by_cases h2 : c = '+'
      · rw [hd, if_neg h1, if_pos h2]
        subst h2
        rcases List.mem_cons.mp h with h3 | h3
        · exact absurd h3 (by decide)
        · exact h3
      · rw [hd, if_neg h1, if_neg h2]
        exact h

theorem parseAfterDigits_comma (sgn : Rat) (ip rest : List Char)
    (h : ',' ∈ rest) : parseAfterDigits sgn ip rest = none := by
  cases rest with
  | nil => cases h
  | cons c r2 =>
    by_cases hc : c = '.'
    · subst hc
      have h2 : ',' ∈ r2 := by
        rcases List.mem_cons.mp h with h3 | h3
        · exact absurd h3 (by decide)
        · exact h3
      have h3 : ',' ∈ r2.dropWhile Char.isDigit :=
        mem_dropWhile_of_mem _ _ _ h2 (by decide)
      have h4 : r2.dropWhile Char.isDigit ≠ [] := List.ne_nil_of_mem h3
      simp [parseAfterDigits, h4]
    · simp [parseAfterDigits, hc]

theorem parseNumL_comma (l : List Char) (h : ',' ∈ l) : parseNumL l = none := by
  have h2 := comma_stripSign l h
  have h3 : ',' ∈ (stripSign l).2.dropWhile Char.isDigit :=
    mem_dropWhile_of_mem _ _ _ h2 (by decide)
  exact parseAfterDigits_comma _ _ _ h3

theorem toNumeric_comma (s : String) (h : ',' ∈ s.toList) : toNumeric s = none :=
  parseNumL_comma _ (mem_trimL _ _ h (by decide))

theorem getYearCol_eq_filter (cols : List String) :
    getYearCol cols = (cols.filter yearPred).head? := by
  induction cols with
  | nil => rfl
  | cons c cs ih =>
    by_cases h : yearPred c
    · simp [getYearCol, List.filter_cons, h]
    · simp [getYearCol, List.filter_cons, h, ih]

/-! ### Claim theorems -/

/-- C10: in app.py's aggregation pipeline the per-cell conversion of a
selected measure column deletes '.' characters but never replaces ',' with a
decimal point, so every cell whose text contains a ',' fails to parse, is
coerced to 0, and contributes exactly 0 to the group sums (here "12,5" in
group "A" gives total 0, while "3" in group "B" gives 3). -/
theorem appConversionZeroesCommaCells :
    (∀ s : String, ',' ∈ s.toList → appCellValue s = 0)
    ∧ appGroupBy "d" ["A", "B"] [("m", ["12,5", "3"])] =
        Except.ok [("A", [0], 0), ("B", [3], 3)] := by
  constructor
  · intro s h
    have hmem : ',' ∈ (delDots s).toList := by
      show ',' ∈ s.toList.filter (fun c => c != '.')
      exact List.mem_filter.mpr ⟨h, by decide⟩
    unfold appCellValue
    rw [toNumeric_comma _ hmem]
    rfl
  · rfl

/-- Witness for C10 at the concrete cell "12,5". -/
theorem appConversionZeroesCommaCellsWitness : appCellValue "12,5" = 0 :=
  appConversionZeroesCommaCells.1 "12,5" (by decide)

/-- C9 (amended): get_year_col returns the first column in original order
whose name (case-insensitive, NOT trimmed) contains "jaar", contains
"onderwijsjaar", or equals exactly "jj", and `none` when no column
qualifies; the two concrete examples of the spec hold. -/
theorem getYearColFirstMatch :
    (∀ cols : List String, getYearCol cols = (cols.filter yearPred).head?)
    ∧ getYearCol ["Opleiding", "Onderwijsjaar", "Aantal"] = some "Onderwijsjaar"
    ∧ getYearCol ["A", "B", "C"] = none :=
  ⟨getYearCol_eq_filter, by decide, by decide⟩

/-- C9 counterexample: the code compares the raw column name without
trimming, so a column whose TRIMMED lower-cased name equals "jj" is not
matched, contradicting the claim's "(case-insensitive, trimmed)". -/
theorem getYearColDoesNotTrim :
    getYearCol [" jj "] = none ∧ strLower (strTrim " jj ") = "jj" := by decide

/-- C1 (amended): utils.py classifies any column containing a suppressed cell
(trimmed text exactly "<5") as Numeric regardless of valid_ratio; dashboard.py
additionally requires at least one cell to parse numerically (valid_count > 0),
so a column all of whose cells are "<5" is Numeric under utils.py but
Categorical under dashboard.py. -/
theorem suppressionOverrideRule :
    (∀ (cells : RawCol) (s : String), s ∈ cells → strTrim s = "<5" →
        utilsColNumeric cells = true)
    ∧ (∀ (cells : RawCol) (s t : String), s ∈ cells → strTrim s = "<5" →
        t ∈ cells → (dashCellParse t).isSome = true → dashColNumeric cells = true)
    ∧ dashColNumeric ["<5"] = false := by
  refine ⟨?_, ?_, by decide⟩
  · intro cells s hs hp
    have hlen : 0 < cells.length := List.length_pos.mpr (List.ne_nil_of_mem hs)
    have hany : cells.any utilsMaskCell = true :=
      List.any_eq_true.mpr ⟨s, hs, by simp [utilsMaskCell, hp]⟩
    simp [utilsColNumeric, utilsTotalNonEmpty, hany, hlen]
  · intro cells s t hs hp ht hpt
    have h0 : 0 < dashValidCount cells := by
      have hm : t ∈ cells.filter (fun c => (dashCellParse c).isSome) :=
        List.mem_filter.mpr ⟨ht, hpt⟩
      exact List.length_pos.mpr (List.ne_nil_of_mem hm)
    have hany : cells.any utilsMaskCell = true :=
      List.any_eq_true.mpr ⟨s, hs, by simp [utilsMaskCell, hp]⟩
    simp [dashColNumeric, hany, h0]

/-- Witness for C1 on concrete columns. -/
theorem suppressionOverrideRuleWitness :
    utilsColNumeric ["<5"] = true ∧ dashColNumeric ["<5", "7"] = true :=
  ⟨suppressionOverrideRule.1 ["<5"] "<5" (by decide) (by decide),
   suppressionOverrideRule.2.1 ["<5", "7"] "<5" "7" (by decide) (by decide)
     (by decide) (by decide)⟩

/-- C1 counterexample: dashboard.py's detect_and_clean_data on a column all of
whose cells are "<5" classifies it Categorical (its valid_count is 0), not
Numeric as the claim states. -/
theorem allSuppressedCategoricalInDashboard :
    dashDetect [("c", ["<5"])] =
      ([("c", DashCol.strs ["<5"])], [("c", [true])], ["c"], []) := by decide

theorem utilsCellParse_of_trim_empty (s : String) (h : strTrim s = "") :
    utilsCellParse s = none := by
  unfold utilsCellParse
  rw [h]
  rfl

theorem dashCellParse_of_trim_empty (s : String) (h : strTrim s = "") :
    dashCellParse s = none := by
  unfold dashCellParse
  rw [h]
  rfl

theorem utilsColNumeric_false_of_noparse (cells : RawCol)
    (hp : ∀ s, s ∈ cells → utilsCellParse s = none)
    (hm : ∀ s, s ∈ cells → strTrim s ≠ "<5") :
    utilsColNumeric cells = false := by
  have hmask : cells.any utilsMaskCell = false := by
    rw [List.any_eq_false]
    intro s hs
    simp [utilsMaskCell, hm s hs]
  have hvc : utilsValidCount cells = 0 := by
    unfold utilsValidCount
    have : cells.filter (fun c => (utilsCellParse c).isSome) = [] := by
      rw [List.filter_eq_nil_iff]
      intro s hs
      simp [hp s hs]
    rw [this]
    rfl
  unfold utilsColNumeric utilsValidRatio
  rw [hmask, hvc]
  norm_num

theorem dashColNumeric_false_of_noparse (cells : RawCol)
    (hp : ∀ s, s ∈ cells → dashCellParse s = none) :
    dashColNumeric cells = false := by
  have hvc : dashValidCount cells = 0 := by
    unfold dashValidCount
    have : cells.filter (fun c => (dashCellParse c).isSome) = [] := by
      rw [List.filter_eq_nil_iff]
      intro s hs
      simp [hp s hs]
    rw [this]
    rfl
  unfold dashColNumeric
  rw [hvc]
  norm_num

/-- C2 counterexample: on the column ["1", "", "", ""] the code's valid_ratio
is 1/4 — the denominator `len(series_clean.dropna())` is the full row count,
because after `astype(str)` no cell is missing — while the spec's formula
(parsed count over non-empty count) gives 1/1; the column is classified
Categorical although the claimed ratio would exceed 0.5. -/
theorem validRatioDenominatorDiffers :
    utilsValidRatio ["1", "", "", ""] = 1 / 4
    ∧ specValidRatio ["1", "", "", ""] = 1
    ∧ utilsValidRatio ["1", "", "", ""] ≠ specValidRatio ["1", "", "", ""]
    ∧ utilsColNumeric ["1", "", "", ""] = false := by decide

/-- C2 (amended): valid_ratio divides the parsed count by the column's total
row count, empty cells included; it agrees with the spec's formula exactly
when the column has no empty cells, and a column with zero non-empty cells is
classified Categorical (in dashboard.py's variant as well). -/
theorem validRatioRule :
    (∀ cells : RawCol, (∀ s, s ∈ cells → strTrim s ≠ "") →
        utilsValidRatio cells = specValidRatio cells)
    ∧ (∀ cells : RawCol, (∀ s, s ∈ cells → strTrim s = "") →
        utilsColNumeric cells = false ∧ dashColNumeric cells = false) := by
  constructor
  · intro cells h
    have he : cells.filter (fun c => strTrim c != "") = cells :=
      List.filter_eq_self.mpr (fun a ha => by simpa using h a ha)
    unfold utilsValidRatio specValidRatio utilsTotalNonEmpty specNonEmptyCount
    rw [he]
  · intro cells h
    refine ⟨utilsColNumeric_false_of_noparse cells
        (fun s hs => utilsCellParse_of_trim_empty s (h s hs))
        (fun s hs => by rw [h s hs]; decide),
      dashColNumeric_false_of_noparse cells
        (fun s hs => dashCellParse_of_trim_empty s (h s hs))⟩

/-- Witness for C2 on concrete columns. -/
theorem validRatioRuleWitness :
    utilsValidRatio ["1", "x"] = specValidRatio ["1", "x"]
    ∧ utilsColNumeric ["", " "] = false ∧ dashColNumeric ["", " "] = false :=
  ⟨validRatioRule.1 ["1", "x"] (by decide),
   validRatioRule.2 ["", " "] (by decide)⟩

/-- C3 (amended): utils.py's parser deletes '.' characters, then replaces ','
with '.', then parses, so "1.234,56" yields exactly 1234.56; a cell whose
trimmed text is "<5" is masked as suppressed and its cleaned value is 0.
dashboard.py's variant does not delete '.' and keeps suppressed cells as
missing in its cleaned table (see the counterexample). -/
theorem europeanNumberParsing :
    utilsCellParse "1.234,56" = some ((123456 : Rat) / 100)
    ∧ (∀ s : String, strTrim s = "<5" →
        utilsMaskCell s = true ∧ (utilsCellParse s).getD 0 = 0) := by
  refine ⟨by decide, fun s h => ⟨by simp [utilsMaskCell, h], ?_⟩⟩
  unfold utilsCellParse
  rw [h]
  decide

/-- Witness for C3 at a concrete suppressed cell with surrounding blanks. -/
theorem europeanNumberParsingWitness :
    utilsMaskCell " <5 " = true ∧ (utilsCellParse " <5 ").getD 0 = 0 :=
  europeanNumberParsing.2 " <5 " (by decide)

/-- C3 counterexample: dashboard.py's detect_and_clean_data does not delete
'.' before parsing, so "1.234,56" fails to parse there, and in its
Numeric-classified cleaned column a suppressed "<5" cell stays missing
(`none`), not 0 — `df_clean[col] = converted` without `fillna`. -/
theorem dashboardParsingDiffers :
    dashCellParse "1.234,56" = none
    ∧ dashCleanCol ["1", "2", "<5"] = DashCol.nums [some 1, some 2, none] := by decide

/-- C6 counterexample: the classify-and-clean operation does not fail on a
zero-column or zero-row table — there is no EmptyInputError anywhere in the
code; both degenerate inputs return normal (empty) outputs. -/
theorem detectSucceedsOnEmptyInput :
    utilsDetect [] = ([], [], [], [])
    ∧ utilsDetect [("A", [])] = ([("A", CleanCol.strs [])], [("A", [])], ["A"], []) := by
  decide

/-- C6 (amended): detect_and_clean_data is total and never signals an error:
a zero-row column is simply classified Categorical, and a column none of
whose cells parses (and with no suppressed cell) is classified Categorical
rather than failing. -/
theorem detectNeverFails :
    (∀ name : String, utilsDetect [(name, [])] =
        ([(name, CleanCol.strs [])], [(name, [])], [name], []))
    ∧ (∀ cells : RawCol,
        (∀ s, s ∈ cells → utilsCellParse s = none ∧ strTrim s ≠ "<5") →
        utilsColNumeric cells = false) :=
  ⟨fun _ => rfl,
   fun cells h => utilsColNumeric_false_of_noparse cells
     (fun s hs => (h s hs).1) (fun s hs => (h s hs).2)⟩

/-- Witness for C6 on a concrete all-text column. -/
theorem detectNeverFailsWitness :
    utilsDetect [("B", [])] = ([("B", CleanCol.strs [])], [("B", [])], ["B"], [])
    ∧ utilsColNumeric ["abc", "def"] = false :=
  ⟨detectNeverFails.1 "B", detectNeverFails.2 ["abc", "def"] (by decide)⟩

/-- C4: evaluation at the spec's own example.  Grouping rows with dimension
values A, A, B and measure cells "10", "5", "3" yields group sums A = 15 and
B = 3 with matching totals; but after the descending sort app.py's
`.tail(top_n)` keeps the LAST row, so its "top-1, high to low" result is
B = 3 instead of the claimed A = 15, while dashboard.py's `.head(n)` returns
A = 15 as the claim states. -/
theorem topNSelectionEval :
    appGroupBy "dim" ["A", "A", "B"] [("m", ["10", "5", "3"])] =
      Except.ok [("A", [15], 15), ("B", [3], 3)]
    ∧ appSortTail false 1 [("A", [(15 : Rat)], 15), ("B", [3], 3)] = [("B", [3], 3)]
    ∧ dashSortTop false (some 1) [("A", [(15 : Rat)], 15), ("B", [3], 3)] =
        [("A", [15], 15)] :=
  ⟨rfl, by decide, by decide⟩

/-- C7: an aggregation request whose dimension column is also among the chosen
measure columns fails — pandas `reset_index` raises because the group-key name
collides with a result column, the signal the spec calls
InvalidSelectionError — and no aggregated rows are produced; without the
overlap the aggregation succeeds with the grouped sums.  This holds for
dashboard.py's pipeline and for app.py's alike. -/
theorem dimensionInMeasuresRejected {K : Type} [DecidableEq K] (keyLe : K → K → Bool)
    (dn : String) (dims : List K) (meas : List (String × List (Option Rat)))
    (an : String) (adims : List String) (ameas : List (String × List String)) :
    (dn ∈ meas.map Prod.fst →
      dashGroupBy keyLe dn dims meas = Except.error AggError.invalidSelection)
    ∧ (dn ∉ meas.map Prod.fst →
      dashGroupBy keyLe dn dims meas =
        Except.ok (aggregate keyLe dims ((meas.map Prod.snd).map fillna0)))
    ∧ (an ∈ ameas.map Prod.fst →
      appGroupBy an adims ameas = Except.error AggError.invalidSelection) := by
  refine ⟨fun h => ?_, fun h => ?_, fun h => ?_⟩
  · simp [dashGroupBy, h]
  · simp [dashGroupBy, h]
  · simp [appGroupBy, h]

/-- Witness for C7: a concrete overlapping request in each script. -/
theorem dimensionInMeasuresRejectedWitness :
    dashGroupBy (fun a b : Rat => decide (a ≤ b)) "n" [(1 : Rat), 1, 3]
      [("n", [some 1, some 1, some 3])] = Except.error AggError.invalidSelection
    ∧ appGroupBy "y" ["A"] [("y", ["1"])] = Except.error AggError.invalidSelection :=
  ⟨(dimensionInMeasuresRejected (fun a b : Rat => decide (a ≤ b)) "n" [(1 : Rat), 1, 3]
      [("n", [some 1, some 1, some 3])] "y" ["A"] [("y", ["1"])]).1 (by decide),
   (dimensionInMeasuresRejected (fun a b : Rat => decide (a ≤ b)) "n" [(1 : Rat), 1, 3]
      [("n", [some 1, some 1, some 3])] "y" ["A"] [("y", ["1"])]).2.2 (by decide)⟩

theorem partition_names (p : RawCol → Bool) (t : RawTable)
    (hnd : (t.map Prod.fst).Nodup) (name : String) :
    (name ∈ t.map Prod.fst ↔
      (name ∈ (t.filter (fun c => !(p c.2))).map Prod.fst ∨
       name ∈ (t.filter (fun c => p c.2)).map Prod.fst))
    ∧ ¬(name ∈ (t.filter (fun c => !(p c.2))).map Prod.fst ∧
        name ∈ (t.filter (fun c => p c.2)).map Prod.fst) := by
  constructor
  · constructor
    · intro h
      rcases List.mem_map.mp h with ⟨c, hc, rfl⟩
      by_cases hp : p c.2
      · exact Or.inr (List.mem_map.mpr ⟨c, List.mem_filter.mpr ⟨hc, hp⟩, rfl⟩)
      · exact Or.inl (List.mem_map.mpr ⟨c, List.mem_filter.mpr ⟨hc, by simp [hp]⟩, rfl⟩)
    · rintro (h | h) <;>
        (rcases List.mem_map.mp h with ⟨c, hc, rfl⟩;
         exact List.mem_map.mpr ⟨c, (List.mem_filter.mp hc).1, rfl⟩)
  · rintro ⟨h1, h2⟩
    rcases List.mem_map.mp h1 with ⟨c1, hc1, e1⟩
    rcases List.mem_map.mp h2 with ⟨c2, hc2, e2⟩
    obtain ⟨hc1t, hp1⟩ := List.mem_filter.mp hc1
    obtain ⟨hc2t, hp2⟩ := List.mem_filter.mp hc2
    have e12 : c1 = c2 :=
      List.inj_on_of_nodup_map hnd hc1t hc2t (e1.trans e2.symm)
    subst e12
    simp [hp2] at hp1

/-- C5: for every raw table with distinct column names, each column name
appears in exactly one of the categorical/numeric name lists returned by
detect_and_clean_data — for utils.py's variant and dashboard.py's alike. -/
theorem classificationPartition (t : RawTable) (hnd : (t.map Prod.fst).Nodup)
    (name : String) :
    ((name ∈ t.map Prod.fst ↔ (name ∈ utilsCats t ∨ name ∈ utilsNums t))
      ∧ ¬(name ∈ utilsCats t ∧ name ∈ utilsNums t))
    ∧ ((name ∈ t.map Prod.fst ↔ (name ∈ dashCats t ∨ name ∈ dashNums t))
      ∧ ¬(name ∈ dashCats t ∧ name ∈ dashNums t)) :=
  ⟨partition_names (fun cells => utilsColNumeric cells) t hnd name,
   partition_names (fun cells => dashColNumeric cells) t hnd name⟩

/-- Witness for C5 on a concrete two-column table. -/
theorem classificationPartitionWitness :
    (("a" ∈ ([("a", ["1"]), ("b", ["x"])] : RawTable).map Prod.fst ↔
        ("a" ∈ utilsCats [("a", ["1"]), ("b", ["x"])]
          ∨ "a" ∈ utilsNums [("a", ["1"]), ("b", ["x"])]))
      ∧ ¬("a" ∈ utilsCats [("a", ["1"]), ("b", ["x"])]
          ∧ "a" ∈ utilsNums [("a", ["1"]), ("b", ["x"])]))
    ∧ (("a" ∈ ([("a", ["1"]), ("b", ["x"])] : RawTable).map Prod.fst ↔
        ("a" ∈ dashCats [("a", ["1"]), ("b", ["x"])]
          ∨ "a" ∈ dashNums [("a", ["1"]), ("b", ["x"])]))
      ∧ ¬("a" ∈ dashCats [("a", ["1"]), ("b", ["x"])]
          ∧ "a" ∈ dashNums [("a", ["1"]), ("b", ["x"])])) :=
  classificationPartition [("a", ["1"]), ("b", ["x"])] (by decide) "a"

theorem colSuppCountR_eq (dims : List String) (m : List Bool) (fk : List String)
    (v : String) (hv : v ∈ fk) :
    colSuppCountR dims m fk v = colSuppCount dims m v := by
  unfold colSuppCountR colSuppCount maskRestrict
  rw [List.filter_filter]
  congr 1
  apply List.filter_congr
  intro a _
  by_cases ha : a.1 = v
  · simp [ha, hv]
  · simp [ha]

theorem colSuppCount_zero (dims : List String) (m : List Bool) (v : String)
    (hd : v ∉ dims) : colSuppCount dims m v = 0 := by
  unfold colSuppCount
  rw [List.length_eq_zero, List.filter_eq_nil_iff]
  rintro ⟨a, b⟩ hab
  have ha := (List.of_mem_zip hab).1
  by_cases hav : a = v
  · subst hav
    exact absurd ha hd
  · simp [hav]

theorem mem_lt5Keys (dims fk : List String) (v : String) :
    v ∈ lt5Keys dims fk ↔ v ∈ dims ∧ v ∈ fk := by
  unfold lt5Keys
  rw [mem_sortG, List.mem_dedup, List.mem_filter]
  simp

theorem mem_lt5Counts (dims : List String) (masks : List (List Bool))
    (fk : List String) (v : String) (cs : List Nat) (tot : Nat) :
    (v, cs, tot) ∈ lt5Counts dims masks fk ↔
      v ∈ dims ∧ v ∈ fk ∧ cs = masks.map (fun m => colSuppCountR dims m fk v)
        ∧ tot = (masks.map (fun m => colSuppCountR dims m fk v)).sum := by
  unfold lt5Counts lt5Row
  rw [List.mem_map]
  constructor
  · rintro ⟨k, hk, he⟩
    have hke : k = v := congrArg Prod.fst he
    subst hke
    have h2 := (mem_lt5Keys dims fk k).mp hk
    have hcs : masks.map (fun m => colSuppCountR dims m fk k) = cs :=
      congrArg (fun x => x.2.1) he
    have htot : (masks.map (fun m => colSuppCountR dims m fk k)).sum = tot :=
      congrArg (fun x => x.2.2) he
    exact ⟨h2.1, h2.2, hcs.symm, htot.symm⟩
  · rintro ⟨h1, h2, rfl, rfl⟩
    exact ⟨v, (mem_lt5Keys dims fk v).mpr ⟨h1, h2⟩, rfl⟩

theorem mem_suppReport (dims : List String) (masks : List (List Bool))
    (fk : List String) (r : String × List Nat × Nat) :
    r ∈ suppReport dims masks fk ↔ r ∈ lt5Counts dims masks fk ∧ 0 < r.2.2 := by
  unfold suppReport
  rw [mem_sortG, List.mem_filter]
  simp

/-- C8: a dimension value `v` shown in the final selection appears in the
suppression report iff its total suppressed-cell count — the number of `true`
mask cells over the chosen measure columns, among raw rows whose dimension
value equals `v` — is strictly positive, and the reported total equals that
count; a value with zero suppressed cells never appears in the report. -/
theorem suppressionReportCorrect (dims : List String) (masks : List (List Bool))
    (fk : List String) (v : String) (hv : v ∈ fk) :
    ((∃ cs tot, (v, cs, tot) ∈ suppReport dims masks fk) ↔
      0 < suppTotal dims masks v)
    ∧ (∀ cs tot, (v, cs, tot) ∈ suppReport dims masks fk →
        tot = suppTotal dims masks v) := by
  have hR : (masks.map (fun m => colSuppCountR dims m fk v)).sum =
      suppTotal dims masks v := by
    unfold suppTotal
    congr 1
    exact List.map_congr_left (fun m _ => colSuppCountR_eq dims m fk v hv)
  by_cases hd : v ∈ dims
  · constructor
    · constructor
      · rintro ⟨cs, tot, hmem⟩
        have h2 := (mem_suppReport dims masks fk _).mp hmem
        have h3 := (mem_lt5Counts dims masks fk v cs tot).mp h2.1
        have htot : tot = suppTotal dims masks v := h3.2.2.2.trans hR
        exact htot ▸ h2.2
      · intro hpos
        refine ⟨_, _, (mem_suppReport dims masks fk _).mpr
          ⟨(mem_lt5Counts dims masks fk v _ _).mpr ⟨hd, hv, rfl, rfl⟩, ?_⟩⟩
        show 0 < (masks.map (fun m => colSuppCountR dims m fk v)).sum
        rw [hR]
        exact hpos
    · intro cs tot hmem
      have h2 := (mem_suppReport dims masks fk _).mp hmem
      have h3 := (mem_lt5Counts dims masks fk v cs tot).mp h2.1
      exact h3.2.2.2.trans hR
  · have hz : suppTotal dims masks v = 0 := by
      unfold suppTotal
      refine List.sum_eq_zero (fun x hx => ?_)
      rcases List.mem_map.mp hx with ⟨m, _, rfl⟩
      exact colSuppCount_zero dims m v hd
    constructor
    · constructor
      · rintro ⟨cs, tot, hmem⟩
        have h3 := (mem_lt5Counts dims masks fk v cs tot).mp
          ((mem_suppReport dims masks fk _).mp hmem).1
        exact absurd h3.1 hd
      · intro hpos
        rw [hz] at hpos
        exact absurd hpos (by simp)
    · intro cs tot hmem
      have h3 := (mem_lt5Counts dims masks fk v cs tot).mp
        ((mem_suppReport dims masks fk _).mp hmem).1
      exact absurd h3.1 hd

/-- Witness for C8: dimension value "X" has 3 suppressed cells among the
displayed rows and appears in the report with total 3. -/
theorem suppressionReportCorrectWitness :
    ((∃ cs tot, ("X", cs, tot) ∈
        suppReport ["X", "X", "X", "Y"] [[true, true, true, false]] ["X", "Y"]) ↔
      0 < suppTotal ["X", "X", "X", "Y"] [[true, true, true, false]] "X")
    ∧ (∀ cs tot, ("X", cs, tot) ∈
        suppReport ["X", "X", "X", "Y"] [[true, true, true, false]] ["X", "Y"] →
        tot = suppTotal ["X", "X", "X", "Y"] [[true, true, true, false]] "X") :=
  suppressionReportCorrect ["X", "X", "X", "Y"] [[true, true, true, false]]
    ["X", "Y"] "X" (by decide)
